import Mathlib

/-!
Formal model of the EventAI vendor selection core.

This file embeds, in Lean, the decision logic of the event orchestrator:

* `Optimizer.optimize_schedule`
  (packages/agentic_event_orchestrator/scheduler/optimizer.py);
* `VendorDiscoveryAgent._matches_filters`, `_calculate_score` and
  `_extract_keywords`
  (packages/agentic_event_orchestrator/agents/vendor_discovery_agent.py);
* the pure tail of `EventPlannerAgent.plan_event`
  (packages/agentic_event_orchestrator/agents/event_planner_agent.py).

Conventions of the embedding:

* Python floats are modelled as rationals, so arithmetic is exact;
* Python string lowering (`str.lower`) is modelled as per-character
  lowering (`toLowerStr`), and the Python substring operator `in` as
  `strContains`;
* the optimizer consumes duck-typed vendor dictionaries with keys
  `id`, `category`, `rating` and `services` (a list of dictionaries with
  keys `id` and `price`); these are modelled by the `Vendor` and `Service`
  records below, with the `dict.get` defaults (`rating` 3.0, `price` 0.0,
  `category` "other") absorbed into total fields;
* `list(set(xs))` is modelled as `xs.dedup`; the order of the resulting
  list is not specified by the source, so theorems about it are stated
  through membership only.
-/

/-- Per-character lowercase of a string; models Python `str.lower()`. -/
def toLowerStr (s : String) : String := ⟨s.data.map Char.toLower⟩

/-- Auxiliary contiguous-sublist test on character lists. -/
def infixOfAux (needle : List Char) : List Char → Bool
  | [] => needle.isEmpty
  | c :: t => needle.isPrefixOf (c :: t) || infixOfAux needle t

/-- Models the Python substring operator: `needle in hay`. -/
def strContains (hay needle : String) : Bool := infixOfAux needle.data hay.data

/-- EventRequirements from nlp_processor/structured_output.py: all fields
required except `location`; `preferences` defaults to the empty list. -/
structure EventRequirements where
  event_type : String
  attendees : ℤ
  date : String
  budget : ℚ
  location : Option String
  preferences : List String
deriving DecidableEq, Repr

/-- A priced service exposed by an optimizer vendor dictionary. -/
structure Service where
  id : String
  price : ℚ
deriving DecidableEq, Repr

/-- A vendor dictionary as consumed by `Optimizer.optimize_schedule`. -/
structure Vendor where
  id : String
  category : String
  rating : ℚ
  services : List Service
deriving DecidableEq, Repr

/-- VendorSelection as constructed by the packages optimizer: it carries the
chosen cost alongside vendor, service and reason. -/
structure VendorSelection where
  vendor_id : String
  service_id : String
  cost : ℚ
  reason : String
deriving DecidableEq, Repr

/-- VendorProfile from agents/vendor_discovery_agent.py. -/
structure VendorProfile where
  vendor_id : String
  business_name : String
  category : String
  description : String
  service_areas : List String
  pricing_min : ℚ
  pricing_max : ℚ
  rating : ℚ
  total_reviews : ℤ
  is_available : Bool
  keywords : List String
deriving DecidableEq, Repr

/-- EventPlan aggregate from nlp_processor/structured_output.py. -/
structure EventPlan where
  event_details : EventRequirements
  selected_vendors : List VendorSelection
  total_cost : ℚ
  schedule : List String
deriving DecidableEq, Repr

/-- The per-service value score of the optimizer, line 45 of optimizer.py:
`score = rating / price if price > 0 else 0`. -/
def valueScore (rating price : ℚ) : ℚ :=
  if 0 < price then rating / price else 0

/-- One iteration of the inner service loop of `optimize_schedule`
(lines 39 to 54): skip the service when its price exceeds the remaining
budget, otherwise replace the running best exactly when the score strictly
improves on it. -/
def considerService (category : String) (remaining : ℚ) (vendor : Vendor)
    (acc : ℚ × Option VendorSelection) (service : Service) :
    ℚ × Option VendorSelection :=
  if remaining < service.price then acc
  else if acc.1 < valueScore vendor.rating service.price then
    (valueScore vendor.rating service.price,
      some { vendor_id := vendor.id, service_id := service.id,
             cost := service.price,
             reason := "Best value for " ++ category })
  else acc

/-- One iteration of the candidate loop of `optimize_schedule` (lines 35
to 54): vendors with an empty service list are skipped. -/
def considerVendor (category : String) (remaining : ℚ)
    (acc : ℚ × Option VendorSelection) (vendor : Vendor) :
    ℚ × Option VendorSelection :=
  if vendor.services.isEmpty then acc
  else vendor.services.foldl (considerService category remaining vendor) acc

/-- The per-category search of `optimize_schedule` (lines 32 to 54),
starting from `best_score = -1`, `best_vendor_selection = None`. -/
def pickBest (category : String) (remaining : ℚ) (candidates : List Vendor) :
    Option VendorSelection :=
  (candidates.foldl (considerVendor category remaining) (-1, none)).2

/-- One iteration of the category loop of `optimize_schedule` (lines 27
to 58): look up the candidates of the category (grouping by category
preserves pool order, so this is a filter), and when a best selection was
found append it and decrement the remaining budget by its cost. -/
def allocStep (available_vendors : List Vendor)
    (acc : List VendorSelection × ℚ) (category : String) :
    List VendorSelection × ℚ :=
  match pickBest category acc.2
      (available_vendors.filter (fun v => v.category == category)) with
  | none => acc
  | some sel => (acc.1 ++ [sel], acc.2 - sel.cost)

/-- The hard-coded required categories of optimizer.py, line 25. -/
def required_categories : List String := ["venue", "catering"]

/-- `Optimizer.optimize_schedule`: greedy per-category selection under a
running budget that starts at `event_details.budget`. -/
def optimize_schedule (event_details : EventRequirements)
    (available_vendors : List Vendor) : List VendorSelection :=
  (required_categories.foldl (allocStep available_vendors)
    ([], event_details.budget)).1

/-- Invariant carried by the inner search state: any recorded best
selection costs at most the remaining budget of the category round. -/
def costBound (remaining : ℚ) (acc : ℚ × Option VendorSelection) : Prop :=
  ∀ sel, acc.2 = some sel → sel.cost ≤ remaining

lemma considerService_costBound (category : String) (remaining : ℚ)
    (vendor : Vendor) (acc : ℚ × Option VendorSelection) (service : Service)
    (h : costBound remaining acc) :
    costBound remaining (considerService category remaining vendor acc service) := by
  unfold considerService
  split_ifs with h1 h2
  · exact h
  · intro sel hsel
    cases hsel
    exact le_of_not_lt h1
  · exact h

lemma foldl_considerService_costBound (category : String) (remaining : ℚ)
    (vendor : Vendor) (l : List Service) (acc : ℚ × Option VendorSelection)
    (h : costBound remaining acc) :
    costBound remaining (l.foldl (considerService category remaining vendor) acc) := by
  induction l generalizing acc with
  | nil => exact h
  | cons s t ih =>
      exact ih _ (considerService_costBound category remaining vendor acc s h)

lemma considerVendor_costBound (category : String) (remaining : ℚ)
    (acc : ℚ × Option VendorSelection) (vendor : Vendor)
    (h : costBound remaining acc) :
    costBound remaining (considerVendor category remaining acc vendor) := by
  unfold considerVendor
  split_ifs with h1
  · exact h
  · exact foldl_considerService_costBound category remaining vendor _ acc h

lemma pickBest_costBound (category : String) (remaining : ℚ)
    (candidates : List Vendor) (sel : VendorSelection)
    (h : pickBest category remaining candidates = some sel) :
    sel.cost ≤ remaining := by
  have key : ∀ (l : List Vendor) (acc : ℚ × Option VendorSelection),
      costBound remaining acc →
      costBound remaining (l.foldl (considerVendor category remaining) acc) := by
    intro l
    induction l with
    | nil => intro acc hacc; exact hacc
    | cons v t ih =>
        intro acc hacc
        exact ih _ (considerVendor_costBound category remaining acc v hacc)
  have h0 : costBound remaining ((-1 : ℚ), (none : Option VendorSelection)) := by
    intro s hs
    cases hs
  exact key candidates _ h0 sel h

lemma allocStep_inv (pool : List Vendor) (acc : List VendorSelection × ℚ)
    (category : String) (h : 0 ≤ acc.2) :
    0 ≤ (allocStep pool acc category).2 ∧
      ((allocStep pool acc category).1.map VendorSelection.cost).sum
          + (allocStep pool acc category).2
        = (acc.1.map VendorSelection.cost).sum + acc.2 := by
  unfold allocStep
  cases hpick : pickBest category acc.2 (pool.filter fun v => v.category == category) with
  | none =>
      constructor
      · simp only [hpick]
        exact h
      · simp only [hpick]
  | some sel =>
      have hc : sel.cost ≤ acc.2 := pickBest_costBound category acc.2 _ sel hpick
      simp only [hpick]
      refine ⟨by simpa using sub_nonneg.mpr hc, ?_⟩
      simp only [List.map_append, List.sum_append, List.map_cons, List.map_nil,
        List.sum_cons, List.sum_nil]
      ring

lemma foldl_allocStep_inv (pool : List Vendor) (cats : List String)
    (acc : List VendorSelection × ℚ) (h : 0 ≤ acc.2) :
    0 ≤ (cats.foldl (allocStep pool) acc).2 ∧
      ((cats.foldl (allocStep pool) acc).1.map VendorSelection.cost).sum
          + (cats.foldl (allocStep pool) acc).2
        = (acc.1.map VendorSelection.cost).sum + acc.2 := by
  induction cats generalizing acc with
  | nil => exact ⟨h, rfl⟩
  | cons c t ih =>
      obtain ⟨h1, h2⟩ := allocStep_inv pool acc c h
      obtain ⟨h3, h4⟩ := ih _ h1
      exact ⟨h3, by rw [List.foldl_cons, h4, h2]⟩

/-- C1: for every requirements object with a non-negative budget and every
vendor pool, the selections returned by `optimize_schedule` have total cost
at most the original budget: each candidate service is only accepted when
its price does not exceed the remaining budget, and the remaining budget is
decremented by the chosen cost after each category. -/
theorem optimize_schedule_budget_invariant (req : EventRequirements)
    (pool : List Vendor) (h : 0 ≤ req.budget) :
    ((optimize_schedule req pool).map VendorSelection.cost).sum ≤ req.budget := by
  unfold optimize_schedule
  obtain ⟨h1, h2⟩ :=
    foldl_allocStep_inv pool required_categories ([], req.budget) (by simpa using h)
  simp only [List.map_nil, List.sum_nil, zero_add] at h2
  linarith

/-- Witness for C1: a concrete run with budget 500000 and one vendor per
required category stays within the budget. -/
theorem optimize_schedule_budget_invariant_witness :
    ((optimize_schedule ⟨"wedding", 200, "2026-03-15", 500000, some "Lahore", []⟩
        [⟨"venue_001", "venue", 24/5, [⟨"svc_v", 200000⟩]⟩,
         ⟨"catering_001", "catering", 9/2, [⟨"svc_c", 50000⟩]⟩]).map
      VendorSelection.cost).sum
      ≤ (⟨"wedding", 200, "2026-03-15", 500000, some "Lahore", []⟩ :
          EventRequirements).budget :=
  optimize_schedule_budget_invariant _ _ (by norm_num)

/-- C2: a service priced at exactly 0 gets value score 0 in the optimizer,
not an infinity and not a division failure. -/
theorem valueScore_zero_price (rating price : ℚ) (h : price = 0) :
    valueScore rating price = 0 := by
  subst h
  simp [valueScore]

/-- Witness for C2: a free service of a vendor rated 4.5 scores 0. -/
theorem valueScore_zero_price_witness : valueScore (9/2) 0 = 0 :=
  valueScore_zero_price (9/2) 0 rfl

lemma foldl_considerService_skip (category : String) (remaining : ℚ)
    (vendor : Vendor) (l : List Service) (acc : ℚ × Option VendorSelection)
    (h : ∀ s ∈ l, remaining < s.price) :
    l.foldl (considerService category remaining vendor) acc = acc := by
  induction l generalizing acc with
  | nil => rfl
  | cons s t ih =>
      rw [List.foldl_cons]
      have hs : remaining < s.price := h s (List.mem_cons_self s t)
      rw [considerService, if_pos hs]
      exact ih acc (fun x hx => h x (List.mem_cons_of_mem s hx))

lemma considerVendor_skip (category : String) (remaining : ℚ)
    (acc : ℚ × Option VendorSelection) (vendor : Vendor)
    (h : ∀ s ∈ vendor.services, remaining < s.price) :
    considerVendor category remaining acc vendor = acc := by
  unfold considerVendor
  split_ifs with h1
  · rfl
  · exact foldl_considerService_skip category remaining vendor _ acc h

lemma pickBest_skip (category : String) (remaining : ℚ)
    (candidates : List Vendor)
    (h : ∀ v ∈ candidates, ∀ s ∈ v.services, remaining < s.price) :
    pickBest category remaining candidates = none := by
  unfold pickBest
  have key : ∀ (l : List Vendor),
      (∀ v ∈ l, ∀ s ∈ v.services, remaining < s.price) →
      l.foldl (considerVendor category remaining) ((-1 : ℚ), none) = ((-1 : ℚ), none) := by
    intro l
    induction l with
    | nil => intro _; rfl
    | cons v t ih =>
        intro hl
        rw [List.foldl_cons,
          considerVendor_skip category remaining _ v (hl v (List.mem_cons_self v t))]
        exact ih (fun x hx => hl x (List.mem_cons_of_mem v hx))
  rw [key candidates h]

lemma allocStep_skip (pool : List Vendor) (acc : List VendorSelection × ℚ)
    (category : String)
    (h : ∀ v ∈ pool, ∀ s ∈ v.services, acc.2 < s.price) :
    allocStep pool acc category = acc := by
  unfold allocStep
  rw [pickBest_skip category acc.2 _
    (fun v hv => h v (List.mem_of_mem_filter hv))]

/-- C6: the allocator is total and tolerates infeasible inputs; when every
service of every vendor in the pool is priced strictly above the budget,
every required category is silently skipped, the returned selection list is
empty, and its total cost is 0. -/
theorem optimize_schedule_all_over_budget_empty (req : EventRequirements)
    (pool : List Vendor)
    (h : ∀ v ∈ pool, ∀ s ∈ v.services, req.budget < s.price) :
    optimize_schedule req pool = [] ∧
      ((optimize_schedule req pool).map VendorSelection.cost).sum = 0 := by
  have key : ∀ (cats : List String),
      cats.foldl (allocStep pool) ([], req.budget) = ([], req.budget) := by
    intro cats
    induction cats with
    | nil => rfl
    | cons c t ih =>
        rw [List.foldl_cons, allocStep_skip pool ([], req.budget) c h, ih]
  have hmain : optimize_schedule req pool = [] := by
    unfold optimize_schedule
    rw [key required_categories]
  exact ⟨hmain, by rw [hmain]; rfl⟩

/-- Witness for C6: budget 10000 and two vendors whose services all cost
more than 10000 yield the empty selection with total cost 0. -/
theorem optimize_schedule_all_over_budget_empty_witness :
    optimize_schedule ⟨"wedding", 50, "2026-04-01", 10000, none, []⟩
        [⟨"venue_001", "venue", 24/5, [⟨"svc_v", 200000⟩]⟩,
         ⟨"catering_001", "catering", 9/2, [⟨"svc_c", 50000⟩]⟩] = [] ∧
      ((optimize_schedule ⟨"wedding", 50, "2026-04-01", 10000, none, []⟩
          [⟨"venue_001", "venue", 24/5, [⟨"svc_v", 200000⟩]⟩,
           ⟨"catering_001", "catering", 9/2, [⟨"svc_c", 50000⟩]⟩]).map
        VendorSelection.cost).sum = 0 :=
  optimize_schedule_all_over_budget_empty _ _ (by decide)

/-- C5: strict improvement comparison makes ties fall to the first
candidate in pool order; with two vendors of the required category
"catering" offering one service each at the same affordable price and with
the same rating, the first vendor of the pool is selected. -/
theorem optimize_schedule_tie_break (id1 sid1 id2 sid2 : String) (r p B : ℚ)
    (attendees : ℤ) (date et : String) (loc : Option String)
    (prefs : List String) (hp : 0 < p) (hpB : p ≤ B) (hr : 0 ≤ r) :
    optimize_schedule ⟨et, attendees, date, B, loc, prefs⟩
        [⟨id1, "catering", r, [⟨sid1, p⟩]⟩, ⟨id2, "catering", r, [⟨sid2, p⟩]⟩]
      = [{ vendor_id := id1, service_id := sid1, cost := p,
           reason := "Best value for catering" }] := by
  have hnot : ¬ B < p := not_lt.mpr hpB
  have hval : valueScore r p = r / p := by simp [valueScore, hp]
  have hpos : (-1 : ℚ) < r / p :=
    lt_of_lt_of_le (by norm_num) (div_nonneg hr hp.le)
  have hirr : ¬ (r / p < r / p) := lt_irrefl _
  simp [optimize_schedule, required_categories, allocStep, pickBest,
    considerVendor, considerService, hval, hnot, hpos, hirr,
    List.filter_cons]

/-- Witness for C5: two catering vendors with rating 4.5 and price 50000
under budget 500000; the first one in the pool wins the tie. -/
theorem optimize_schedule_tie_break_witness :
    optimize_schedule ⟨"wedding", 200, "2026-03-15", 500000, some "Lahore", []⟩
        [⟨"catering_001", "catering", 9/2, [⟨"svc_a", 50000⟩]⟩,
         ⟨"catering_002", "catering", 9/2, [⟨"svc_b", 50000⟩]⟩]
      = [{ vendor_id := "catering_001", service_id := "svc_a", cost := 50000,
           reason := "Best value for catering" }] :=
  optimize_schedule_tie_break "catering_001" "svc_a" "catering_002" "svc_b"
    (9/2) 50000 500000 200 "2026-03-15" "wedding" (some "Lahore") []
    (by norm_num) (by norm_num) (by norm_num)

/-- `VendorDiscoveryAgent._matches_filters` (lines 189 to 206): hard
availability, budget and location filters applied in order, with early
false returns. Python truthiness of the float `budget` is `budget` being
nonzero, and truthiness of the optional string `location` is it being
present and non-empty. -/
def location_ok (vendor : VendorProfile) : Option String → Bool
  | none => true
  | some loc =>
      if loc = "" then true
      else if toLowerStr loc ∉ vendor.service_areas.map toLowerStr ∧
          "all" ∉ vendor.service_areas.map toLowerStr then false
      else true

def matches_filters (vendor : VendorProfile) (requirements : EventRequirements) : Bool :=
  if vendor.is_available = false then false
  else if requirements.budget ≠ 0 ∧ vendor.pricing_min > requirements.budget then false
  else location_ok vendor requirements.location

lemma location_ok_false_iff (v : VendorProfile) (o : Option String) :
    location_ok v o = false ↔
      ∃ loc, o = some loc ∧ loc ≠ "" ∧
        toLowerStr loc ∉ v.service_areas.map toLowerStr ∧
        "all" ∉ v.service_areas.map toLowerStr := by
  cases o with
  | none => simp [location_ok]
  | some loc =>
      simp only [location_ok]
      split_ifs with h1 h2
      · simp [h1]
      · exact iff_of_true rfl ⟨loc, rfl, h1, h2.1, h2.2⟩
      · rw [not_and_or, not_not, not_not] at h2
        constructor
        · intro hfalse
          exact absurd hfalse (by simp)
        · rintro ⟨loc2, hloc2, _, hmem, hall⟩
          cases hloc2
          rcases h2 with hin | hin
          · exact absurd hin hmem
          · exact absurd hin hall

/-- C4: the filter rejects a vendor exactly when it is unavailable, or the
budget is truthy and exceeded by the minimum price, or the location is
present, non-empty, matches no service area case-insensitively, and the
lowered service areas do not contain the wildcard "all". -/
theorem matches_filters_spec (v : VendorProfile) (r : EventRequirements) :
    matches_filters v r = false ↔
      (v.is_available = false ∨
        (r.budget ≠ 0 ∧ v.pricing_min > r.budget) ∨
        (∃ loc, r.location = some loc ∧ loc ≠ "" ∧
          toLowerStr loc ∉ v.service_areas.map toLowerStr ∧
          "all" ∉ v.service_areas.map toLowerStr)) := by
  unfold matches_filters
  split_ifs with h1 h2
  · simp [h1]
  · simp [h2]
  · rw [location_ok_false_iff]
    constructor
    · intro hloc
      exact Or.inr (Or.inr hloc)
    · rintro (ha | hb | hloc)
      · exact absurd ha h1
      · exact absurd hb h2
      · exact hloc

/-- C7 counterexample: the claim as stated is false. An available vendor
with minimum price 5 fails the filter for a requirements object with budget
1, yet passes it for the identical requirements object whose budget is
strictly lower (0): a budget of exactly 0 is falsy in Python, so the budget
criterion is skipped entirely. -/
theorem matches_filters_monotone_counterexample :
    matches_filters
        ⟨"v1", "BBQ House", "catering", "bbq catering", ["Lahore"], 5, 10, 4,
          10, true, []⟩
        ⟨"wedding", 10, "2026-01-01", 1, none, []⟩ = false ∧
      (0 : ℚ) < 1 ∧
      matches_filters
        ⟨"v1", "BBQ House", "catering", "bbq catering", ["Lahore"], 5, 10, 4,
          10, true, []⟩
        ⟨"wedding", 10, "2026-01-01", 0, none, []⟩ = true := by
  refine ⟨?_, by norm_num, ?_⟩ <;> decide

/-- C7 amended: if a vendor fails the filter for requirements R, it also
fails for any requirements whose budget is either unchanged or strictly
lower but still nonzero (truthy), and whose location is either unchanged or
present, non-empty and more restrictive, in the sense that any service area
it matches is also matched by the location of R. -/
theorem matches_filters_monotone (v : VendorProfile) (R Rp : EventRequirements)
    (hfail : matches_filters v R = false)
    (hb : Rp.budget = R.budget ∨ (Rp.budget < R.budget ∧ Rp.budget ≠ 0))
    (hl : Rp.location = R.location ∨
      ∃ l lp, R.location = some l ∧ Rp.location = some lp ∧ lp ≠ "" ∧
        (toLowerStr lp ∈ v.service_areas.map toLowerStr →
         toLowerStr l ∈ v.service_areas.map toLowerStr)) :
    matches_filters v Rp = false := by
  rw [matches_filters_spec] at hfail ⊢
  rcases hfail with hav | ⟨hbne, hbgt⟩ | ⟨loc, hRloc, hne, hnmem, hnall⟩
  · exact Or.inl hav
  · refine Or.inr (Or.inl ?_)
    rcases hb with heq | ⟨hlt, hne0⟩
    · exact ⟨by rw [heq]; exact hbne, by rw [heq]; exact hbgt⟩
    · exact ⟨hne0, lt_trans hlt hbgt⟩
  · refine Or.inr (Or.inr ?_)
    rcases hl with heq | ⟨l, lp, hRl, hRpl, hlpne, hmono⟩
    · exact ⟨loc, by rw [heq]; exact hRloc, hne, hnmem, hnall⟩
    · refine ⟨lp, hRpl, hlpne, ?_, hnall⟩
      intro hmem
      rw [hRl] at hRloc
      cases hRloc
      exact hnmem (hmono hmem)

/-- Witness for the amended C7: a vendor serving only Lahore that fails for
budget 100 and location Karachi also fails when the budget drops to 50 and
the location stays Karachi. -/
theorem matches_filters_monotone_witness :
    matches_filters
        ⟨"v1", "BBQ House", "catering", "bbq catering", ["Lahore"], 5, 10, 4,
          10, true, []⟩
        ⟨"wedding", 10, "2026-01-01", 50, some "Karachi", []⟩ = false :=
  matches_filters_monotone
    ⟨"v1", "BBQ House", "catering", "bbq catering", ["Lahore"], 5, 10, 4,
      10, true, []⟩
    ⟨"wedding", 10, "2026-01-01", 100, some "Karachi", []⟩
    ⟨"wedding", 10, "2026-01-01", 50, some "Karachi", []⟩
    (by decide)
    (Or.inr ⟨by norm_num, by norm_num⟩)
    (Or.inl rfl)

/-- Keyword match count of `_calculate_score` (lines 221 to 228): a search
keyword matches when it occurs among the lowered vendor keywords or as a
substring of the lowered concatenation of description, category and
business name. -/
def keywordMatches (vendor : VendorProfile) (search_keywords : List String) : ℕ :=
  search_keywords.countP (fun keyword =>
    (vendor.keywords.map toLowerStr).contains keyword ||
      strContains
        (toLowerStr (vendor.description ++ " " ++ vendor.category ++ " "
          ++ vendor.business_name)) keyword)

/-- Keyword sub-score of `_calculate_score`, line 230:
`min(1.0, matches / max(len(search_keywords), 1)) * 0.4`. -/
def keyword_score (vendor : VendorProfile) (search_keywords : List String) : ℚ :=
  min 1 ((keywordMatches vendor search_keywords : ℚ)
      / ((max search_keywords.length 1 : ℕ) : ℚ)) * 0.4

/-- Rating sub-score of `_calculate_score`, line 233:
`(vendor.rating / 5.0) * 0.3`. -/
def rating_score (vendor : VendorProfile) : ℚ :=
  vendor.rating / 5 * 0.3

/-- Average price of the vendor, line 236 of the scorer. -/
def avg_price (vendor : VendorProfile) : ℚ :=
  (vendor.pricing_min + vendor.pricing_max) / 2

/-- Price-fit sub-score of `_calculate_score`, lines 237 to 244: full
credit 0.2 when the average price fits a truthy budget, a linear overage
penalty clamped at 0 otherwise, and half credit 0.1 when the budget is
falsy (absent or exactly 0). -/
def price_score (vendor : VendorProfile) (requirements : EventRequirements) : ℚ :=
  if requirements.budget ≠ 0 then
    if avg_price vendor ≤ requirements.budget then 0.2
    else max 0 (0.2 * (1 - (avg_price vendor - requirements.budget)
      / requirements.budget))
  else 0.1

/-- Availability sub-score of `_calculate_score`, line 247. -/
def availability_score (vendor : VendorProfile) : ℚ :=
  if vendor.is_available then 0.1 else 0

/-- `VendorDiscoveryAgent._calculate_score`: the sum of the four weighted
sub-scores. -/
def calculate_score (vendor : VendorProfile) (requirements : EventRequirements)
    (search_keywords : List String) : ℚ :=
  keyword_score vendor search_keywords + rating_score vendor
    + price_score vendor requirements + availability_score vendor

lemma keyword_score_bounds (v : VendorProfile) (kws : List String) :
    0 ≤ keyword_score v kws ∧ keyword_score v kws ≤ 0.4 := by
  unfold keyword_score
  have hd : (1 : ℚ) ≤ ((max kws.length 1 : ℕ) : ℚ) := by
    exact_mod_cast Nat.le_max_right kws.length 1
  have hq : 0 ≤ (keywordMatches v kws : ℚ) / ((max kws.length 1 : ℕ) : ℚ) :=
    div_nonneg (Nat.cast_nonneg _) (le_trans zero_le_one hd)
  constructor
  · exact mul_nonneg (le_min zero_le_one hq) (by norm_num)
  · calc min 1 ((keywordMatches v kws : ℚ) / ((max kws.length 1 : ℕ) : ℚ)) * 0.4
        ≤ 1 * 0.4 := mul_le_mul_of_nonneg_right (min_le_left _ _) (by norm_num)
      _ = 0.4 := by norm_num

lemma rating_score_bounds (v : VendorProfile) (h0 : 0 ≤ v.rating)
    (h5 : v.rating ≤ 5) :
    0 ≤ rating_score v ∧ rating_score v ≤ 0.3 := by
  unfold rating_score
  constructor
  · exact mul_nonneg (div_nonneg h0 (by norm_num)) (by norm_num)
  · have : v.rating / 5 ≤ 1 := (div_le_one (by norm_num)).mpr h5
    calc v.rating / 5 * 0.3 ≤ 1 * 0.3 :=
          mul_le_mul_of_nonneg_right this (by norm_num)
      _ = 0.3 := by norm_num

lemma price_score_bounds (v : VendorProfile) (r : EventRequirements)
    (hb : 0 ≤ r.budget) :
    0 ≤ price_score v r ∧ price_score v r ≤ 0.2 := by
  unfold price_score
  split_ifs with h1 h2
  · norm_num
  · have hbpos : 0 < r.budget := lt_of_le_of_ne hb (Ne.symm h1)
    have hover : 0 < (avg_price v - r.budget) / r.budget :=
      div_pos (sub_pos.mpr (lt_of_not_le h2)) hbpos
    constructor
    · exact le_max_left 0 _
    · refine max_le (by norm_num) ?_
      nlinarith
  · norm_num

/-- C3: for every vendor profile with a rating in the data-model range 0
to 5, every requirements object with a non-negative budget, and every
keyword list, the vendor-discovery score lies in the closed interval from
0 to 1: the four weighted sub-scores are bounded by their weights 0.4,
0.3, 0.2 and 0.1, which sum to 1. -/
theorem calculate_score_bounded (v : VendorProfile) (r : EventRequirements)
    (kws : List String) (h0 : 0 ≤ v.rating) (h5 : v.rating ≤ 5)
    (hb : 0 ≤ r.budget) :
    0 ≤ calculate_score v r kws ∧ calculate_score v r kws ≤ 1 := by
  obtain ⟨k0, k1⟩ := keyword_score_bounds v kws
  obtain ⟨r0, r1⟩ := rating_score_bounds v h0 h5
  obtain ⟨p0, p1⟩ := price_score_bounds v r hb
  have a0 : 0 ≤ availability_score v := by
    unfold availability_score
    split_ifs <;> norm_num
  have a1 : availability_score v ≤ 0.1 := by
    unfold availability_score
    split_ifs <;> norm_num
  unfold calculate_score
  constructor <;> linarith

/-- Witness for C3: a concrete sample vendor scored against the sample
wedding requirements produces a score between 0 and 1. -/
theorem calculate_score_bounded_witness :
    0 ≤ calculate_score
        ⟨"catering_001", "Lahore Catering Excellence", "catering",
          "Premium Pakistani cuisine for weddings and events",
          ["Lahore", "Islamabad"], 50000, 500000, 9/2, 120, true,
          ["wedding", "mehndi", "walima", "catering", "food", "traditional"]⟩
        ⟨"wedding", 200, "2026-03-15", 500000, some "Lahore", ["traditional"]⟩
        ["wedding", "traditional", "mehndi"] ∧
      calculate_score
        ⟨"catering_001", "Lahore Catering Excellence", "catering",
          "Premium Pakistani cuisine for weddings and events",
          ["Lahore", "Islamabad"], 50000, 500000, 9/2, 120, true,
          ["wedding", "mehndi", "walima", "catering", "food", "traditional"]⟩
        ⟨"wedding", 200, "2026-03-15", 500000, some "Lahore", ["traditional"]⟩
        ["wedding", "traditional", "mehndi"] ≤ 1 :=
  calculate_score_bounded _ _ _ (by norm_num) (by norm_num) (by norm_num)

/-- C10: when the budget equals exactly 0, both budget-dependent code
paths treat it as absent, because Python tests the truthiness of the float
rather than its presence: the filter never excludes on price (the result
depends only on availability and location, with no constraint on the
minimum price), and the price-fit sub-score takes the unknown-budget value
0.1 rather than the over-budget penalty. -/
theorem zero_budget_truthiness (v : VendorProfile) (r : EventRequirements)
    (hb : r.budget = 0) (hav : v.is_available = true)
    (hloc : r.location = none ∨ r.location = some "" ∨
      ∃ loc, r.location = some loc ∧
        (toLowerStr loc ∈ v.service_areas.map toLowerStr ∨
          "all" ∈ v.service_areas.map toLowerStr)) :
    matches_filters v r = true ∧ price_score v r = 0.1 := by
  constructor
  · unfold matches_filters
    rw [if_neg (by simp [hav]), if_neg (by simp [hb])]
    rcases hloc with h | h | ⟨loc, h, hmem⟩
    · rw [h]; rfl
    · rw [h]; simp [location_ok]
    · rw [h]
      simp only [location_ok]
      split_ifs with h1 h2
      · rfl
      · rcases hmem with hm | hm
        · exact absurd hm h2.1
        · exact absurd hm h2.2
      · rfl
  · unfold price_score
    rw [if_neg (by simp [hb])]

/-- Witness for C10: a vendor with a strictly positive minimum price
(999999) passes the filter for a requirements object with budget 0 and no
location, and receives price sub-score 0.1. -/
theorem zero_budget_truthiness_witness :
    matches_filters
        ⟨"v2", "Pricey Palace", "venue", "luxury venue", ["Lahore"], 999999,
          1999999, 5, 10, true, []⟩
        ⟨"wedding", 10, "2026-01-01", 0, none, []⟩ = true ∧
      price_score
        ⟨"v2", "Pricey Palace", "venue", "luxury venue", ["Lahore"], 999999,
          1999999, 5, 10, true, []⟩
        ⟨"wedding", 10, "2026-01-01", 0, none, []⟩ = 0.1 :=
  zero_budget_truthiness _ _ rfl rfl (Or.inl rfl)

/-- Base keyword list of `_extract_keywords` (lines 173 to 176): the
lowered event type followed by the lowered preference strings. -/
def base_keywords (requirements : EventRequirements) : List String :=
  [toLowerStr requirements.event_type]
    ++ requirements.preferences.map toLowerStr

/-- `VendorDiscoveryAgent._extract_keywords` (lines 171 to 187): the base
keywords, extended by exactly one of the three category mappings (the
source uses an elif chain, so wedding takes precedence over birthday,
which takes precedence over corporate), then deduplicated. The source
returns `list(set(keywords))`, whose order is unspecified; `dedup` is the
order-irrelevant model of it. -/
def extract_keywords (requirements : EventRequirements) : List String :=
  (if strContains (toLowerStr requirements.event_type) "wedding" then
      base_keywords requirements
        ++ ["mehndi", "baraat", "walima", "venue", "catering", "photography"]
    else if strContains (toLowerStr requirements.event_type) "birthday" then
      base_keywords requirements
        ++ ["party", "cake", "decoration", "entertainment"]
    else if strContains (toLowerStr requirements.event_type) "corporate" then
      base_keywords requirements
        ++ ["conference", "meeting", "venue", "catering"]
    else base_keywords requirements).dedup

/-- The keyword set exactly as claim C8 words it: every one of the three
extensions applies whenever its substring occurs in the event type,
independently of the others. This definition follows the claim, not the
source; it is compared against `extract_keywords`. -/
def spec_claimed_keywords (requirements : EventRequirements) : List String :=
  (base_keywords requirements
    ++ (if strContains (toLowerStr requirements.event_type) "wedding" then
        ["mehndi", "baraat", "walima", "venue", "catering", "photography"]
      else [])
    ++ (if strContains (toLowerStr requirements.event_type) "birthday" then
        ["party", "cake", "decoration", "entertainment"]
      else [])
    ++ (if strContains (toLowerStr requirements.event_type) "corporate" then
        ["conference", "meeting", "venue", "catering"]
      else [])).dedup

/-- C8 counterexample: for the event type "wedding birthday", which
contains both the substring "wedding" and the substring "birthday", the
claim predicts that "party" is among the derived keywords, but the source
uses an elif chain, so only the wedding extension is added and "party" is
absent. -/
theorem extract_keywords_counterexample :
    "party" ∈ spec_claimed_keywords
        ⟨"Wedding Birthday", 50, "2026-05-01", 100000, none, []⟩ ∧
      "party" ∉ extract_keywords
        ⟨"Wedding Birthday", 50, "2026-05-01", 100000, none, []⟩ := by
  decide

/-- C8 amended: a string is a derived keyword exactly when it is the
lowered event type, a lowered preference, or a member of the single
extension selected by the elif chain: the wedding extension when the
lowered event type contains "wedding", otherwise the birthday extension
when it contains "birthday", otherwise the corporate extension when it
contains "corporate". -/
theorem extract_keywords_mem (req : EventRequirements) (k : String) :
    k ∈ extract_keywords req ↔
      (k = toLowerStr req.event_type
        ∨ k ∈ req.preferences.map toLowerStr
        ∨ (strContains (toLowerStr req.event_type) "wedding" = true ∧
            k ∈ ["mehndi", "baraat", "walima", "venue", "catering",
                 "photography"])
        ∨ (strContains (toLowerStr req.event_type) "wedding" = false ∧
            strContains (toLowerStr req.event_type) "birthday" = true ∧
            k ∈ ["party", "cake", "decoration", "entertainment"])
        ∨ (strContains (toLowerStr req.event_type) "wedding" = false ∧
            strContains (toLowerStr req.event_type) "birthday" = false ∧
            strContains (toLowerStr req.event_type) "corporate" = true ∧
            k ∈ ["conference", "meeting", "venue", "catering"])) := by
  unfold extract_keywords base_keywords
  rw [List.mem_dedup]
  cases hw : strContains (toLowerStr req.event_type) "wedding" with
  | true => simp [hw]
  | false =>
      cases hb : strContains (toLowerStr req.event_type) "birthday" with
      | true => simp [hw, hb]
      | false =>
          cases hc : strContains (toLowerStr req.event_type) "corporate" with
          | true => simp [hw, hb, hc]
          | false => simp [hw, hb, hc]

/-- The selection step of `EventPlannerAgent.plan_event`, line 54: the
optimizer runs only when the gathered vendor list is non-empty (Python
truthiness of the list). -/
def plan_selected (event_details : EventRequirements)
    (vendors : List Vendor) : List VendorSelection :=
  if vendors.isEmpty then [] else optimize_schedule event_details vendors

/-- The pure tail of `EventPlannerAgent.plan_event` (lines 53 to 70),
modelled as a function of the requirements and the gathered vendor pool:
vendor gathering itself (discovery agent plus API and manual handlers) is
external input. The total cost is the sum of the selected costs, with the
explicit 0.0 fallback of line 57 for an empty selection. -/
def plan_event (event_details : EventRequirements)
    (vendors : List Vendor) : EventPlan :=
  { event_details := event_details
    selected_vendors := plan_selected event_details vendors
    total_cost :=
      if (plan_selected event_details vendors).isEmpty then 0
      else ((plan_selected event_details vendors).map VendorSelection.cost).sum
    schedule := ["10:00 AM - Venue Setup", "12:00 PM - Event Start",
                 "4:00 PM - Event End", "5:00 PM - Cleanup"] }

/-- C9: the EventPlan built by `plan_event` satisfies, at creation time,
that its total cost equals the sum of the costs of its selected vendors,
the sum over the empty list being 0. -/
theorem plan_event_total_cost_invariant (req : EventRequirements)
    (vendors : List Vendor) :
    (plan_event req vendors).total_cost
      = ((plan_event req vendors).selected_vendors.map
          VendorSelection.cost).sum := by
  simp only [plan_event]
  split_ifs with h
  · rw [List.isEmpty_iff] at h
    rw [h]
    rfl
  · rfl
